import Mathlib

/-!
Verification development for the `wwt-aligner` alignment pipeline
(`backend/wwt_aligner/driver.py` and `backend/wwt_aligner/agent_cli.py`).

The Python pipeline drives external processes (source extraction, index
generation, plate solving) and file-system effects.  We embed it shallowly:
the outcome of each external step is an input to the model (a `RefOutcome`
per reference image, a `SolveOutcome` for the solver run), and the pipeline
logic of `go` becomes a pure fold over those outcomes producing the same
in-memory state the Python code builds (the surviving index list, the
accumulated scale bounds, the index-generation commands that were issued).
File-system effects are modelled as explicit event lists.
-/

namespace WwtAligner

/-! ### `image_size_to_anet_preset` (driver.py lines 32-44)

`return max(-5, int(np.floor(5 + 2 * math.log2(size_deg))))`.
`np.floor` of a float is an integer-valued float and `int(...)` of that is
exactly the mathematical floor, so the composite is `⌊5 + 2 * log2 s⌋`. -/

noncomputable def image_size_to_anet_preset (size_deg : ℝ) : ℤ :=
  max (-5) ⌊(5 : ℝ) + 2 * Real.logb 2 size_deg⌋

/-! ### Per-image data (driver.py `FitsInfo`, fields the pipeline reads) -/

structure FitsInfo where
  large_scale_deg : ℝ
  width_deg : ℝ

/-- Outcome of the two fallible external steps for one reference image in the
`go` loop: `source_extract_fits` may raise (caught at driver.py line 206), and
the `build-astrometry-index` subprocess may fail (caught at line 241).
Indexing is only attempted when extraction succeeded, which the constructors
reflect. -/
inductive RefOutcome
  | extractFailed
  | indexFailed (info : FitsInfo)
  | indexed (info : FitsInfo)

/-- `os.path.join(work_dir, name)` for a relative `name`, as the driver uses
it (`work_dir` has no trailing slash; `join('', name) = name`). -/
def pjoin (d name : String) : String :=
  if d = "" then name else d ++ "/" ++ name

def objectsPath (n : ℕ) : String := "objects" ++ toString n ++ ".fits"

def indexPath (n : ℕ) : String := "index" ++ toString n ++ ".fits"

/-- An entry of `index_fits_list`, together with the `-I` identifier that was
passed when generating it (driver.py line 222: `'-I', str(fits_num)`). -/
structure IndexArtifact where
  id : ℕ
  path : String
deriving DecidableEq

/-- The `build-astrometry-index` invocation assembled at driver.py
lines 218-227 (the `-E` and `-f` flags are constant and omitted). -/
structure IndexCommand where
  input : String
  output : String
  id : ℕ
  sortColumn : String
  preset : ℤ

noncomputable def buildIndexCommand (wd : String) (n : ℕ) (info : FitsInfo) :
    IndexCommand :=
  { input := pjoin wd (objectsPath n)
    output := pjoin wd (indexPath n)
    id := n
    sortColumn := "FLUX"
    preset := image_size_to_anet_preset info.large_scale_deg }

/-- Mutable state of the reference-image loop in `go`:
`index_fits_list` (line 198/248), the issued index commands, and the
`scale_low`/`scale_high` pair (line 199/253-258; the two are `None`
together, hence one `Option` of a pair). -/
structure GoState where
  index_fits_list : List IndexArtifact
  commands : List IndexCommand
  scales : Option (ℝ × ℝ)

def GoState.init : GoState := ⟨[], [], none⟩

/-- One iteration of the `for fits_num, fits_path in enumerate(fits_paths)`
loop (driver.py lines 201-258).  `n` is `fits_num`. -/
noncomputable def goLoopStep (wd : String) (st : GoState) (n : ℕ)
    (o : RefOutcome) : GoState :=
  match o with
  | .extractFailed => st
  | .indexFailed info =>
      { st with commands := st.commands ++ [buildIndexCommand wd n info] }
  | .indexed info =>
      let this_scale_low := info.width_deg * 30
      let this_scale_high := info.width_deg * 120
      { index_fits_list :=
          st.index_fits_list ++ [⟨n, pjoin wd (indexPath n)⟩]
        commands := st.commands ++ [buildIndexCommand wd n info]
        scales := some (match st.scales with
          | none => (this_scale_low, this_scale_high)
          | some (lo, hi) =>
              (min lo this_scale_low, max hi this_scale_high)) }

noncomputable def goLoopFrom (wd : String) (n : ℕ) (os : List RefOutcome)
    (st : GoState) : GoState :=
  match os with
  | [] => st
  | o :: rest => goLoopFrom wd (n + 1) rest (goLoopStep wd st n o)

noncomputable def goLoop (wd : String) (os : List RefOutcome) : GoState :=
  goLoopFrom wd 0 os GoState.init

/-- Number of reference images that succeeded at both extraction and
indexing. -/
def countIndexed (os : List RefOutcome) : ℕ :=
  os.countP fun o => match o with | .indexed _ => true | _ => false

/-- The `FitsInfo` records of the surviving (fully successful) reference
images, in order. -/
def survivors (os : List RefOutcome) : List FitsInfo :=
  os.filterMap fun o => match o with | .indexed i => some i | _ => none

/-! ### Solver configuration file (driver.py lines 265-272) -/

inductive ConfigLine
  | add_path (d : String)
  | inparallel
  | indexRef (p : String)
deriving DecidableEq

def configLines (wd : String) (st : GoState) : List ConfigLine :=
  [ConfigLine.add_path wd, ConfigLine.inparallel] ++
    st.index_fits_list.map fun a => ConfigLine.indexRef a.path

/-! ### Solver invocation (driver.py lines 299-321)

`subprocess.check_call` either succeeds (exit code 0) or raises;
afterwards `assert os.path.exists(wcs_file)` raises when the solution
artifact is missing.  Any exception from the `try` block causes the full
solver log to be echoed line by line via `logger.error` and is then
re-raised (`raise` at line 321). -/

structure SolveOutcome where
  exit_ok : Bool
  solution_exists : Bool
  log_lines : List String

/-! ### Metadata embedding (driver.py lines 347-363) -/

/-- Index of the last occurrence of `c` in `l`, or `-1` when absent
(mirrors Python `str.rfind`). -/
def lastIdx (c : Char) (l : List Char) : ℤ :=
  (List.range l.length).foldl
    (fun acc i => if l.get? i = some c then (i : ℤ) else acc) (-1)

/-- Python `os.path.splitext` (posixpath): split at the last dot, provided
it lies after the last slash and the base name does not consist solely of
leading dots up to it. -/
def splitext (p : String) : String × String :=
  let l := p.toList
  let sepIdx := lastIdx '/' l
  let dotIdx := lastIdx '.' l
  if sepIdx < dotIdx then
    if ((l.take dotIdx.toNat).drop (sepIdx + 1).toNat).all (· = '.') then
      (p, "")
    else
      (⟨l.take dotIdx.toNat⟩, ⟨l.drop dotIdx.toNat⟩)
  else
    (p, "")

/-- Python `os.path.basename`. -/
def basename (p : String) : String :=
  ⟨p.toList.drop (lastIdx '/' p.toList + 1).toNat⟩

/-- Python `str.lower()` (the extensions compared are ASCII). -/
def lowerStr (s : String) : String :=
  ⟨s.toList.map Char.toLower⟩

/-- File-system events of the embedding stage: `img.save(path, ...)`
re-encodes the loaded image to `path`; `avm.embed(src, dst)` reads `src`
and writes the tagged result to `dst`. -/
inductive FsEvent
  | save (path : String)
  | embed (src dst : String)
deriving DecidableEq

/-- Paths written by an event (`embed` writes only its destination). -/
def FsEvent.writes : FsEvent → List String
  | .save p => [p]
  | .embed _ dst => [dst]

def writtenPaths (evs : List FsEvent) : List String :=
  evs.flatMap FsEvent.writes

/-- Output path resolution (driver.py lines 347-350): when no output path
is given, append `_tagged` to the input's base name, keeping its
extension. -/
def resolveOutputPath (rgb_path : String) (output_path : Option String) :
    String :=
  let pieces := splitext (basename rgb_path)
  match output_path with
  | none => pieces.1 ++ "_tagged" ++ pieces.2
  | some p => p

/-- The embedding stage (driver.py lines 347-363): compare the lower-cased
extensions of input and output; when they differ, re-encode the image at
the output path and embed the tags there in place, otherwise embed
straight from the input to the output path. -/
def embedStage (rgb_path : String) (output_path : Option String) :
    List FsEvent :=
  if lowerStr (splitext (basename rgb_path)).2 ≠
      lowerStr (splitext (resolveOutputPath rgb_path output_path)).2 then
    [FsEvent.save (resolveOutputPath rgb_path output_path),
     FsEvent.embed (resolveOutputPath rgb_path output_path)
       (resolveOutputPath rgb_path output_path)]
  else
    [FsEvent.embed rgb_path (resolveOutputPath rgb_path output_path)]

/-! ### The run as a whole (driver.py `go`, after the loop) -/

inductive GoResult
  | abortedNoIndex
  | solveFailed (echoed : List String)
  | completed (cfg : List ConfigLine) (embedEvents : List FsEvent)

/-- `go` after the reference-image loop: abort when no index survived
(line 260-261), otherwise write the config, run the solver, check the
solution artifact, and on success proceed to the embedding stage. -/
noncomputable def goRun (wd rgb_path : String) (output_path : Option String)
    (os : List RefOutcome) (s : SolveOutcome) : GoResult :=
  let st := goLoop wd os
  if st.index_fits_list.isEmpty then
    GoResult.abortedNoIndex
  else if s.exit_ok then
    if s.solution_exists then
      GoResult.completed (configLines wd st) (embedStage rgb_path output_path)
    else
      GoResult.solveFailed s.log_lines
  else
    GoResult.solveFailed s.log_lines

/-! ### WCS normalization (driver.py lines 333-337)

```
hdwork = wcs.to_header()
hdwork['CRPIX2'] = img.height + 1 - hdwork['CRPIX2']
hdwork['PC1_2'] *= -1
hdwork['PC2_2'] *= -1
```

The header is modelled by the quantities `WCS.to_header()` emits for a
solved tangent-plane solution; the values are rationals (Python floats are
rationals).  The three assignments above touch exactly `CRPIX2`, `PC1_2`
and `PC2_2`; every other card is untouched. -/

structure WcsHeader where
  crpix1 : ℚ
  crpix2 : ℚ
  pc1_1 : ℚ
  pc1_2 : ℚ
  pc2_1 : ℚ
  pc2_2 : ℚ
  cdelt1 : ℚ
  cdelt2 : ℚ
  crval1 : ℚ
  crval2 : ℚ
  lonpole : ℚ
  latpole : ℚ
  ctype1 : String
  ctype2 : String
deriving DecidableEq

def normalizeWcs (height : ℕ) (h : WcsHeader) : WcsHeader :=
  { h with
    crpix2 := (height : ℚ) + 1 - h.crpix2
    pc1_2 := h.pc1_2 * (-1)
    pc2_2 := h.pc2_2 * (-1) }

/-! ### `go_impl` work-directory handling (agent_cli.py lines 219-250)

```
if settings.work_path is not None:
    work_dir = settings.work_path
    os.mkdir(work_dir)          # raises FileExistsError if it exists
else:
    work_dir = tempfile.mkdtemp()
try:
    go(...)
except KeyboardInterrupt: return 1
except Exception: return 1
finally:
    if settings.work_path is None:
        shutil.rmtree(work_dir)
return 0
```

`os.mkdir` on an existing path raises before the `try` block, so nothing
runs and nothing is cleaned up; the exception propagates out of
`go_impl` uncaught (modelled as a `none` return code).  `tmp` stands for
the fresh path `tempfile.mkdtemp()` returned. -/

inductive RunOutcome
  | ok
  | raised
  | interrupted

inductive ImplEvent
  | mkdir (p : String)
  | mkdtemp (p : String)
  | runPipeline
  | rmtree (p : String)
deriving DecidableEq

def returnCode : RunOutcome → ℤ
  | .ok => 0
  | .raised => 1
  | .interrupted => 1

def go_impl (work_path : Option String) (path_exists : Bool) (tmp : String)
    (outcome : RunOutcome) : List ImplEvent × Option ℤ :=
  match work_path with
  | some wp =>
      if path_exists then
        ([], none)
      else
        ([ImplEvent.mkdir wp, ImplEvent.runPipeline], some (returnCode outcome))
  | none =>
      ([ImplEvent.mkdtemp tmp, ImplEvent.runPipeline, ImplEvent.rmtree tmp],
        some (returnCode outcome))

/-! ### Helper lemmas about the reference-image loop -/

lemma countIndexed_cons (o : RefOutcome) (os : List RefOutcome) :
    countIndexed (o :: os) =
      (match o with | .indexed _ => 1 | _ => 0) + countIndexed os := by
  cases o <;> simp [countIndexed, List.countP_cons] <;> omega

lemma goLoopStep_index_length (wd : String) (st : GoState) (n : ℕ)
    (o : RefOutcome) :
    (goLoopStep wd st n o).index_fits_list.length =
      st.index_fits_list.length +
        (match o with | .indexed _ => 1 | _ => 0) := by
  cases o <;> simp [goLoopStep]

lemma goLoopFrom_index_length (wd : String) (os : List RefOutcome) :
    ∀ (n : ℕ) (st : GoState),
      (goLoopFrom wd n os st).index_fits_list.length =
        st.index_fits_list.length + countIndexed os := by
  induction os with
  | nil => intro n st; simp [goLoopFrom, countIndexed]
  | cons o rest ih =>
      intro n st
      rw [goLoopFrom, ih, goLoopStep_index_length, countIndexed_cons]
      cases o <;> simp <;> omega

lemma goLoop_index_length (wd : String) (os : List RefOutcome) :
    (goLoop wd os).index_fits_list.length = countIndexed os := by
  rw [goLoop, goLoopFrom_index_length]
  simp [GoState.init]

/-! #### Scale-bound accumulation -/

/-- The accumulation the loop performs on `scales`, expressed as a fold over
the widths of the surviving images. -/
def foldScales (acc : Option (ℝ × ℝ)) (ws : List ℝ) : Option (ℝ × ℝ) :=
  ws.foldl
    (fun a w => some (match a with
      | none => (w * 30, w * 120)
      | some (lo, hi) => (min lo (w * 30), max hi (w * 120))))
    acc

lemma goLoopFrom_scales (wd : String) (os : List RefOutcome) :
    ∀ (n : ℕ) (st : GoState),
      (goLoopFrom wd n os st).scales =
        foldScales st.scales ((survivors os).map FitsInfo.width_deg) := by
  induction os with
  | nil => intro n st; simp [goLoopFrom, survivors, foldScales]
  | cons o rest ih =>
      intro n st
      rw [goLoopFrom, ih]
      cases o <;> simp [goLoopStep, survivors, foldScales]

lemma foldScales_some (ws : List ℝ) :
    ∀ (lo hi : ℝ),
      foldScales (some (lo, hi)) ws =
        some ((ws.map (· * 30)).foldl min lo,
              (ws.map (· * 120)).foldl max hi) := by
  induction ws with
  | nil => intro lo hi; simp [foldScales]
  | cons w rest ih =>
      intro lo hi
      simpa [foldScales] using ih (min lo (w * 30)) (max hi (w * 120))

lemma foldl_min_le_init {α : Type _} [LinearOrder α] (l : List α) :
    ∀ a : α, l.foldl min a ≤ a := by
  induction l with
  | nil => intro a; simp
  | cons x rest ih =>
      intro a
      calc List.foldl min (min a x) rest ≤ min a x := ih (min a x)
        _ ≤ a := min_le_left _ _

lemma foldl_min_le_mem {α : Type _} [LinearOrder α] (l : List α) :
    ∀ (a x : α), x ∈ l → l.foldl min a ≤ x := by
  induction l with
  | nil => intro a x hx; simp at hx
  | cons y rest ih =>
      intro a x hx
      rcases List.mem_cons.mp hx with h | h
      · subst h
        calc List.foldl min (min a x) rest ≤ min a x := foldl_min_le_init _ _
          _ ≤ x := min_le_right _ _
      · exact ih (min a y) x h

lemma foldl_min_mem {α : Type _} [LinearOrder α] (l : List α) :
    ∀ a : α, l.foldl min a = a ∨ l.foldl min a ∈ l := by
  induction l with
  | nil => intro a; simp
  | cons x rest ih =>
      intro a
      rcases ih (min a x) with h | h
      · rcases min_cases a x with ⟨hm, _⟩ | ⟨hm, _⟩
        · left; simpa [List.foldl, hm] using h
        · right; simp only [List.foldl]; rw [h, hm]; exact List.mem_cons_self _ _
      · right; exact List.mem_cons_of_mem _ h

lemma foldl_max_init_le {α : Type _} [LinearOrder α] (l : List α) :
    ∀ a : α, a ≤ l.foldl max a := by
  induction l with
  | nil => intro a; simp
  | cons x rest ih =>
      intro a
      calc a ≤ max a x := le_max_left _ _
        _ ≤ List.foldl max (max a x) rest := ih (max a x)

lemma foldl_max_mem_le {α : Type _} [LinearOrder α] (l : List α) :
    ∀ (a x : α), x ∈ l → x ≤ l.foldl max a := by
  induction l with
  | nil => intro a x hx; simp at hx
  | cons y rest ih =>
      intro a x hx
      rcases List.mem_cons.mp hx with h | h
      · subst h
        calc x ≤ max a x := le_max_right _ _
          _ ≤ List.foldl max (max a x) rest := foldl_max_init_le _ _
      · exact ih (max a y) x h

lemma foldl_max_mem {α : Type _} [LinearOrder α] (l : List α) :
    ∀ a : α, l.foldl max a = a ∨ l.foldl max a ∈ l := by
  induction l with
  | nil => intro a; simp
  | cons x rest ih =>
      intro a
      rcases ih (max a x) with h | h
      · rcases max_cases a x with ⟨hm, _⟩ | ⟨hm, _⟩
        · left; simpa [List.foldl, hm] using h
        · right; simp only [List.foldl]; rw [h, hm]; exact List.mem_cons_self _ _
      · right; exact List.mem_cons_of_mem _ h

/-! #### Identifier and provenance invariants -/

lemma goLoopStep_id_invariant (wd : String) (st : GoState) (n : ℕ)
    (o : RefOutcome)
    (hlt : ∀ a ∈ st.index_fits_list, a.id < n)
    (hpw : (st.index_fits_list.map IndexArtifact.id).Pairwise (· < ·)) :
    (∀ a ∈ (goLoopStep wd st n o).index_fits_list, a.id < n + 1) ∧
      ((goLoopStep wd st n o).index_fits_list.map IndexArtifact.id).Pairwise
        (· < ·) := by
  cases o with
  | extractFailed =>
      exact ⟨fun a ha => Nat.lt_succ_of_lt (hlt a ha), hpw⟩
  | indexFailed info =>
      exact ⟨fun a ha => Nat.lt_succ_of_lt (hlt a ha), hpw⟩
  | indexed info =>
      constructor
      · intro a ha
        simp only [goLoopStep, List.mem_append, List.mem_singleton] at ha
        rcases ha with h | h
        · exact Nat.lt_succ_of_lt (hlt a h)
        · subst h; exact Nat.lt_succ_self n
      · simp only [goLoopStep, List.map_append]
        rw [List.pairwise_append]
        refine ⟨hpw, by simp, ?_⟩
        intro x hx y hy
        simp only [List.mem_map] at hx
        obtain ⟨a, ha, rfl⟩ := hx
        simp only [List.map_cons, List.map_nil, List.mem_singleton] at hy
        subst hy
        exact hlt a ha

lemma goLoopFrom_id_invariant (wd : String) (os : List RefOutcome) :
    ∀ (n : ℕ) (st : GoState),
      (∀ a ∈ st.index_fits_list, a.id < n) →
      (st.index_fits_list.map IndexArtifact.id).Pairwise (· < ·) →
      (∀ a ∈ (goLoopFrom wd n os st).index_fits_list, a.id < n + os.length) ∧
        ((goLoopFrom wd n os st).index_fits_list.map IndexArtifact.id).Pairwise
          (· < ·) := by
  induction os with
  | nil => intro n st hlt hpw; exact ⟨fun a ha => by simpa using hlt a ha, hpw⟩
  | cons o rest ih =>
      intro n st hlt hpw
      have hstep := goLoopStep_id_invariant wd st n o hlt hpw
      have := ih (n + 1) (goLoopStep wd st n o) hstep.1 hstep.2
      rw [goLoopFrom]
      refine ⟨fun a ha => ?_, this.2⟩
      have := this.1 a ha
      simpa [Nat.add_assoc, Nat.add_comm 1 rest.length] using this

lemma goLoop_ids_pairwise (wd : String) (os : List RefOutcome) :
    ((goLoop wd os).index_fits_list.map IndexArtifact.id).Pairwise (· < ·) := by
  have := goLoopFrom_id_invariant wd os 0 GoState.init
    (by simp [GoState.init]) (by simp [GoState.init])
  exact this.2

lemma goLoopFrom_index_mem (wd : String) (os : List RefOutcome) :
    ∀ (n : ℕ) (st : GoState) (a : IndexArtifact),
      a ∈ (goLoopFrom wd n os st).index_fits_list →
      a ∈ st.index_fits_list ∨
        ∃ j info, os[j]? = some (RefOutcome.indexed info) ∧
          a = ⟨n + j, pjoin wd (indexPath (n + j))⟩ := by
  induction os with
  | nil => intro n st a ha; left; simpa [goLoopFrom] using ha
  | cons o rest ih =>
      intro n st a ha
      rw [goLoopFrom] at ha
      rcases ih (n + 1) (goLoopStep wd st n o) a ha with h | ⟨j, info, hj, rfl⟩
      · cases o with
        | extractFailed => exact Or.inl h
        | indexFailed info => exact Or.inl (by simpa [goLoopStep] using h)
        | indexed info =>
            simp only [goLoopStep, List.mem_append, List.mem_singleton] at h
            rcases h with h | h
            · exact Or.inl h
            · right
              exact ⟨0, info, by simp, by simpa using h⟩
      · right
        exact ⟨j + 1, info, by simpa using hj,
          by rw [Nat.add_assoc, Nat.add_comm 1 j]⟩

/-! #### Issued index-generation commands -/

lemma goLoopFrom_commands_superset (wd : String) (os : List RefOutcome) :
    ∀ (n : ℕ) (st : GoState) (c : IndexCommand),
      c ∈ st.commands → c ∈ (goLoopFrom wd n os st).commands := by
  induction os with
  | nil => intro n st c hc; simpa [goLoopFrom] using hc
  | cons o rest ih =>
      intro n st c hc
      rw [goLoopFrom]
      refine ih (n + 1) _ c ?_
      cases o <;> simp [goLoopStep, hc]

lemma goLoopFrom_command_of_attempt (wd : String) (os : List RefOutcome) :
    ∀ (n : ℕ) (st : GoState) (i : ℕ) (info : FitsInfo),
      (os[i]? = some (RefOutcome.indexed info) ∨
        os[i]? = some (RefOutcome.indexFailed info)) →
      buildIndexCommand wd (n + i) info ∈ (goLoopFrom wd n os st).commands := by
  induction os with
  | nil => intro n st i info h; simp at h
  | cons o rest ih =>
      intro n st i info h
      rw [goLoopFrom]
      match i, h with
      | 0, h =>
          have ho : o = RefOutcome.indexed info ∨
              o = RefOutcome.indexFailed info := by
            simpa using h.imp (fun h => by simpa using h) (fun h => by simpa using h)
          refine goLoopFrom_commands_superset wd rest (n + 1) _ _ ?_
          rcases ho with rfl | rfl <;> simp [goLoopStep]
      | j + 1, h =>
          have hj : rest[j]? = some (RefOutcome.indexed info) ∨
              rest[j]? = some (RefOutcome.indexFailed info) := by
            simpa using h
          have := ih (n + 1) (goLoopStep wd st n o) j info hj
          simpa [Nat.add_assoc, Nat.add_comm 1 j] using this

/-! #### The abort condition of `goRun` -/

lemma goRun_aborted_iff (wd rgb : String) (out : Option String)
    (os : List RefOutcome) (s : SolveOutcome) :
    goRun wd rgb out os s = GoResult.abortedNoIndex ↔ countIndexed os = 0 := by
  have hlen := goLoop_index_length wd os
  have hiff : (goLoop wd os).index_fits_list.isEmpty = true ↔
      countIndexed os = 0 := by
    rw [List.isEmpty_iff, ← hlen, List.length_eq_zero]
  unfold goRun
  by_cases h : (goLoop wd os).index_fits_list.isEmpty = true
  · simp [h, hiff.mp h]
  · have hcount : ¬ countIndexed os = 0 := fun hc => h (hiff.mpr hc)
    rw [Bool.not_eq_true] at h
    simp only [h, Bool.false_eq_true, if_false]
    constructor
    · intro habs
      cases hex : s.exit_ok <;> cases hsol : s.solution_exists <;>
        simp [hex, hsol] at habs
    · intro hc; exact absurd hc hcount

/-! ### Claim theorems -/

/-- Claim C1: over N reference images of which K succeed at both extraction
and indexing, the surviving index list has exactly K entries, the run
reaches the solver iff K ≥ 1, and when K = 0 it aborts with the
empty-index error (for every possible solver outcome, i.e. before any
solver invocation); per-image failures never abort the run. -/
theorem go_survival_and_abort (wd rgb_path : String)
    (output_path : Option String) (os : List RefOutcome) (s : SolveOutcome) :
    (goLoop wd os).index_fits_list.length = countIndexed os ∧
    (goRun wd rgb_path output_path os s ≠ GoResult.abortedNoIndex ↔
      1 ≤ countIndexed os) ∧
    (countIndexed os = 0 →
      goRun wd rgb_path output_path os s = GoResult.abortedNoIndex) := by
  refine ⟨goLoop_index_length wd os, ?_, fun hc =>
    (goRun_aborted_iff wd rgb_path output_path os s).mpr hc⟩
  rw [Ne, goRun_aborted_iff]
  omega

theorem go_survival_and_abort_witness :
    countIndexed ([] : List RefOutcome) = 0 ∧
    goRun "wd" "in.png" none [] ⟨true, true, []⟩ =
      GoResult.abortedNoIndex :=
  ⟨rfl, (go_survival_and_abort "wd" "in.png" none [] ⟨true, true, []⟩).2.2 rfl⟩

/-- Claim C2: if the solver process exits 0 but the solution artifact is
absent, `go` reports a solve failure: the solver log is echoed line by line
to the error channel and the error is re-raised, aborting the run. -/
theorem go_solve_missing_artifact (wd rgb_path : String)
    (output_path : Option String) (os : List RefOutcome) (s : SolveOutcome)
    (hK : 1 ≤ countIndexed os) (hexit : s.exit_ok = true)
    (hmiss : s.solution_exists = false) :
    goRun wd rgb_path output_path os s = GoResult.solveFailed s.log_lines := by
  have hlen := goLoop_index_length wd os
  have hne : (goLoop wd os).index_fits_list.isEmpty = false := by
    rw [Bool.eq_false_iff, Ne, List.isEmpty_iff, ← List.length_eq_zero, hlen]
    omega
  unfold goRun
  simp [hne, hexit, hmiss]

theorem go_solve_missing_artifact_witness :
    1 ≤ countIndexed [RefOutcome.indexed ⟨1, 1⟩] ∧
    goRun "wd" "in.png" none [RefOutcome.indexed ⟨1, 1⟩]
        ⟨true, false, ["solve log line"]⟩ =
      GoResult.solveFailed ["solve log line"] :=
  ⟨by decide,
    go_solve_missing_artifact "wd" "in.png" none [RefOutcome.indexed ⟨1, 1⟩]
      ⟨true, false, ["solve log line"]⟩ (by decide) rfl rfl⟩

/-- Claim C3: the WCS normalization replaces the vertical reference pixel
by `height + 1` minus its old value, sign-inverts the two matrix
coefficients coupling the latitude axis (`PC1_2`, `PC2_2`), and leaves
every other header quantity unchanged. -/
theorem normalizeWcs_fields (height : ℕ) (h : WcsHeader) :
    (normalizeWcs height h).crpix2 = (height : ℚ) + 1 - h.crpix2 ∧
    (normalizeWcs height h).pc1_2 = -h.pc1_2 ∧
    (normalizeWcs height h).pc2_2 = -h.pc2_2 ∧
    (normalizeWcs height h).crpix1 = h.crpix1 ∧
    (normalizeWcs height h).pc1_1 = h.pc1_1 ∧
    (normalizeWcs height h).pc2_1 = h.pc2_1 ∧
    (normalizeWcs height h).cdelt1 = h.cdelt1 ∧
    (normalizeWcs height h).cdelt2 = h.cdelt2 ∧
    (normalizeWcs height h).crval1 = h.crval1 ∧
    (normalizeWcs height h).crval2 = h.crval2 ∧
    (normalizeWcs height h).lonpole = h.lonpole ∧
    (normalizeWcs height h).latpole = h.latpole ∧
    (normalizeWcs height h).ctype1 = h.ctype1 ∧
    (normalizeWcs height h).ctype2 = h.ctype2 := by
  refine ⟨rfl, ?_, ?_, rfl, rfl, rfl, rfl, rfl, rfl, rfl, rfl, rfl, rfl, rfl⟩ <;>
    simp [normalizeWcs]

/-- Claim C7: applying the WCS normalization twice with the same image
height is the identity: the sign inversions are involutive and the
reference-pixel flip about the same height undoes itself. -/
theorem normalizeWcs_involutive (height : ℕ) (h : WcsHeader) :
    normalizeWcs height (normalizeWcs height h) = h := by
  cases h
  simp [normalizeWcs]

/-- Claim C4: for every reference image that reaches the index-generation
step with large-scale estimate `s > 0`, the density preset passed to the
index tool (`-P`) equals `max (-5) ⌊5 + 2 * log₂ s⌋`. -/
theorem go_index_preset (wd : String) (os : List RefOutcome) (i : ℕ)
    (info : FitsInfo)
    (hi : os[i]? = some (RefOutcome.indexed info) ∨
      os[i]? = some (RefOutcome.indexFailed info))
    (hpos : 0 < info.large_scale_deg) :
    ∃ cmd ∈ (goLoop wd os).commands, cmd.id = i ∧
      cmd.preset = max (-5) ⌊(5 : ℝ) + 2 * Real.logb 2 info.large_scale_deg⌋ := by
  refine ⟨buildIndexCommand wd i info, ?_, rfl, rfl⟩
  have := goLoopFrom_command_of_attempt wd os 0 GoState.init i info hi
  simpa [goLoop] using this

theorem go_index_preset_witness :
    (([RefOutcome.indexed ⟨1, 1⟩] : List RefOutcome)[0]? =
        some (RefOutcome.indexed ⟨1, 1⟩) ∨
      ([RefOutcome.indexed ⟨1, 1⟩] : List RefOutcome)[0]? =
        some (RefOutcome.indexFailed ⟨1, 1⟩)) ∧
    (0 : ℝ) < 1 ∧
    ∃ cmd ∈ (goLoop "wd" [RefOutcome.indexed ⟨1, 1⟩]).commands,
      cmd.id = 0 ∧ cmd.preset = max (-5) ⌊(5 : ℝ) + 2 * Real.logb 2 1⌋ :=
  ⟨Or.inl rfl, by norm_num,
    go_index_preset "wd" [RefOutcome.indexed ⟨1, 1⟩] 0 ⟨1, 1⟩ (Or.inl rfl)
      (by norm_num)⟩

/-- Claim C8: the density preset is monotonically non-decreasing in the
large-scale angular estimate and clamped at a minimum of −5. -/
theorem preset_monotone_clamped :
    (∀ s1 s2 : ℝ, 0 < s1 → s1 ≤ s2 →
      image_size_to_anet_preset s1 ≤ image_size_to_anet_preset s2) ∧
    (∀ s : ℝ, 0 < s → -5 ≤ image_size_to_anet_preset s) := by
  constructor
  · intro s1 s2 h1 h12
    unfold image_size_to_anet_preset
    refine max_le_max le_rfl (Int.floor_le_floor ?_)
    have hlog := Real.logb_le_logb_of_le (b := 2) one_lt_two h1 h12
    linarith
  · intro s _
    exact le_max_left _ _

theorem preset_monotone_clamped_witness :
    (0 : ℝ) < 1 ∧ (1 : ℝ) ≤ 2 ∧
    image_size_to_anet_preset 1 ≤ image_size_to_anet_preset 2 ∧
    -5 ≤ image_size_to_anet_preset 1 :=
  ⟨by norm_num, by norm_num,
    preset_monotone_clamped.1 1 2 (by norm_num) (by norm_num),
    preset_monotone_clamped.2 1 (by norm_num)⟩

/-! #### Nonempty scale accumulation -/

lemma foldScales_none_spec (w0 : ℝ) (ws : List ℝ) :
    ∃ lo hi, foldScales none (w0 :: ws) = some (lo, hi) ∧
      lo ∈ (w0 :: ws).map (· * 30) ∧
      (∀ x ∈ (w0 :: ws).map (· * 30), lo ≤ x) ∧
      hi ∈ (w0 :: ws).map (· * 120) ∧
      (∀ x ∈ (w0 :: ws).map (· * 120), x ≤ hi) := by
  refine ⟨(ws.map (· * 30)).foldl min (w0 * 30),
    (ws.map (· * 120)).foldl max (w0 * 120), ?_, ?_, ?_, ?_, ?_⟩
  · simpa [foldScales] using foldScales_some ws (w0 * 30) (w0 * 120)
  · rcases foldl_min_mem (ws.map (· * 30)) (w0 * 30) with h | h
    · simp [h]
    · simp only [List.map_cons]
      exact List.mem_cons_of_mem _ h
  · intro x hx
    simp only [List.map_cons] at hx
    rcases List.mem_cons.mp hx with h | h
    · subst h; exact foldl_min_le_init _ _
    · exact foldl_min_le_mem _ _ _ h
  · rcases foldl_max_mem (ws.map (· * 120)) (w0 * 120) with h | h
    · simp [h]
    · simp only [List.map_cons]
      exact List.mem_cons_of_mem _ h
  · intro x hx
    simp only [List.map_cons] at hx
    rcases List.mem_cons.mp hx with h | h
    · subst h; exact foldl_max_init_le _ _
    · exact foldl_max_mem_le _ _ _ h

lemma goLoop_scales_eq (wd : String) (os : List RefOutcome) :
    (goLoop wd os).scales =
      foldScales none ((survivors os).map FitsInfo.width_deg) := by
  rw [goLoop, goLoopFrom_scales]
  simp [GoState.init]

/-- Claim C5: with at least one surviving reference image, the aggregated
scale bounds are the minimum of the per-image lower bounds and the maximum
of the per-image upper bounds, a surviving image of characteristic width
`w` arc-minutes (`w = width_deg * 60`) contributing lower bound `w / 2` and
upper bound `w * 2`; with exactly one survivor the bounds are exactly
`(w / 2, w * 2)`. -/
theorem go_scale_bounds (wd : String) (os : List RefOutcome) :
    (survivors os ≠ [] →
      ∃ lo hi, (goLoop wd os).scales = some (lo, hi) ∧
        lo ∈ (survivors os).map (fun i => i.width_deg * 60 / 2) ∧
        (∀ x ∈ (survivors os).map (fun i => i.width_deg * 60 / 2), lo ≤ x) ∧
        hi ∈ (survivors os).map (fun i => i.width_deg * 60 * 2) ∧
        (∀ x ∈ (survivors os).map (fun i => i.width_deg * 60 * 2), x ≤ hi)) ∧
    (∀ info : FitsInfo, survivors os = [info] →
      (goLoop wd os).scales =
        some (info.width_deg * 60 / 2, info.width_deg * 60 * 2)) := by
  have hkey := goLoop_scales_eq wd os
  have hlow : (survivors os).map (fun i => i.width_deg * 60 / 2) =
      ((survivors os).map FitsInfo.width_deg).map (· * 30) := by
    rw [List.map_map]
    congr 1
    funext i
    show i.width_deg * 60 / 2 = i.width_deg * 30
    ring
  have hhigh : (survivors os).map (fun i => i.width_deg * 60 * 2) =
      ((survivors os).map FitsInfo.width_deg).map (· * 120) := by
    rw [List.map_map]
    congr 1
    funext i
    show i.width_deg * 60 * 2 = i.width_deg * 120
    ring
  constructor
  · intro hne
    obtain ⟨i0, rest, hs⟩ := List.exists_cons_of_ne_nil hne
    rw [hlow, hhigh, hkey, hs]
    simpa [hs] using
      foldScales_none_spec i0.width_deg (rest.map FitsInfo.width_deg)
  · intro info hs
    rw [hkey, hs]
    simp only [List.map_cons, List.map_nil, foldScales, List.foldl_cons,
      List.foldl_nil]
    congr 2 <;> ring

theorem go_scale_bounds_witness :
    survivors [RefOutcome.indexed ⟨1, 1⟩] = [⟨1, 1⟩] ∧
    (goLoop "wd" [RefOutcome.indexed ⟨1, 1⟩]).scales =
      some ((1 : ℝ) * 60 / 2, (1 : ℝ) * 60 * 2) :=
  ⟨by simp [survivors],
    (go_scale_bounds "wd" [RefOutcome.indexed ⟨1, 1⟩]).2 ⟨1, 1⟩
      (by simp [survivors])⟩

/-- Claim C6: every `index` line of the solver configuration refers to an
artifact whose generation step succeeded (it names the output of an
`indexed` outcome), and the identifiers of the surviving artifacts are
pairwise distinct. -/
theorem go_config_provenance_and_ids (wd : String) (os : List RefOutcome) :
    (∀ p, ConfigLine.indexRef p ∈ configLines wd (goLoop wd os) →
      ∃ i info, os[i]? = some (RefOutcome.indexed info) ∧
        p = pjoin wd (indexPath i)) ∧
    ((goLoop wd os).index_fits_list.map IndexArtifact.id).Nodup := by
  constructor
  · intro p hp
    simp only [configLines, List.mem_append, List.mem_cons, List.mem_singleton,
      List.mem_map, List.not_mem_nil, or_false] at hp
    rcases hp with (h | h) | ⟨a, ha, hpa⟩
    · exact absurd h (by simp)
    · exact absurd h (by simp)
    · rcases goLoopFrom_index_mem wd os 0 GoState.init a
        (by simpa [goLoop] using ha) with h | ⟨j, info, hj, rfl⟩
      · simp [GoState.init] at h
      · refine ⟨j, info, hj, ?_⟩
        have hp' : pjoin wd (indexPath (0 + j)) = p := by
          injection hpa
        simpa using hp'.symm
  · have hpw := goLoop_ids_pairwise wd os
    exact hpw.imp fun h => ne_of_lt h

theorem go_config_provenance_and_ids_witness :
    ConfigLine.indexRef (pjoin "wd" (indexPath 0)) ∈
      configLines "wd" (goLoop "wd" [RefOutcome.indexed ⟨1, 1⟩]) ∧
    (∃ i info,
      (([RefOutcome.indexed ⟨1, 1⟩] : List RefOutcome)[i]? =
        some (RefOutcome.indexed info)) ∧
      pjoin "wd" (indexPath 0) = pjoin "wd" (indexPath i)) :=
  ⟨by decide,
    (go_config_provenance_and_ids "wd" [RefOutcome.indexed ⟨1, 1⟩]).1
      (pjoin "wd" (indexPath 0)) (by decide)⟩

/-- Claim C9: the embedding stage writes only the resolved output path
(and does write it), never the input path unless the two coincide; when
the lower-cased extensions differ, the image is first re-encoded at the
output path and the tags are then embedded into that file in place. -/
theorem embedStage_output_writes (rgb_path : String)
    (output_path : Option String) :
    (∀ p ∈ writtenPaths (embedStage rgb_path output_path),
      p = resolveOutputPath rgb_path output_path) ∧
    writtenPaths (embedStage rgb_path output_path) ≠ [] ∧
    (rgb_path ≠ resolveOutputPath rgb_path output_path →
      rgb_path ∉ writtenPaths (embedStage rgb_path output_path)) ∧
    (lowerStr (splitext (basename rgb_path)).2 ≠
        lowerStr (splitext (resolveOutputPath rgb_path output_path)).2 →
      embedStage rgb_path output_path =
        [FsEvent.save (resolveOutputPath rgb_path output_path),
         FsEvent.embed (resolveOutputPath rgb_path output_path)
           (resolveOutputPath rgb_path output_path)]) := by
  by_cases hd : lowerStr (splitext (basename rgb_path)).2 =
      lowerStr (splitext (resolveOutputPath rgb_path output_path)).2
  · refine ⟨?_, ?_, ?_, fun hne => absurd hd hne⟩ <;>
      simp [embedStage, hd, writtenPaths, FsEvent.writes]
  · refine ⟨?_, ?_, ?_, fun _ => by simp [embedStage, hd]⟩ <;>
      simp [embedStage, hd, writtenPaths, FsEvent.writes]

theorem embedStage_output_writes_witness :
    lowerStr (splitext (basename "a.png")).2 ≠
      lowerStr (splitext (resolveOutputPath "a.png" (some "b.jpg"))).2 ∧
    embedStage "a.png" (some "b.jpg") =
      [FsEvent.save "b.jpg", FsEvent.embed "b.jpg" "b.jpg"] :=
  ⟨by decide,
    ((embedStage_output_writes "a.png" (some "b.jpg")).2.2.2
      (by decide)).trans (by decide)⟩

/-- Claim C10: with an explicit work directory, `go_impl` creates the
directory itself, fails before any pipeline stage when something already
exists at that path, and never deletes it; without one it creates a fresh
temporary directory and deletes it after the run whatever the outcome. -/
theorem go_impl_workdir_policy (wp tmp : String) (b : Bool)
    (o : RunOutcome) :
    go_impl (some wp) true tmp o = ([], none) ∧
    go_impl (some wp) false tmp o =
      ([ImplEvent.mkdir wp, ImplEvent.runPipeline], some (returnCode o)) ∧
    (∀ p, ImplEvent.rmtree p ∉ (go_impl (some wp) b tmp o).1) ∧
    ImplEvent.rmtree tmp ∈ (go_impl none b tmp o).1 := by
  refine ⟨rfl, rfl, ?_, by simp [go_impl]⟩
  intro p
  cases b <;> simp [go_impl]

theorem go_impl_workdir_policy_witness :
    go_impl (some "w") true "tmp" RunOutcome.ok = ([], none) ∧
    ImplEvent.rmtree "w" ∉
      (go_impl (some "w") true "tmp" RunOutcome.ok).1 ∧
    ImplEvent.rmtree "tmp" ∈ (go_impl none true "tmp" RunOutcome.ok).1 :=
  ⟨(go_impl_workdir_policy "w" "tmp" true RunOutcome.ok).1,
    (go_impl_workdir_policy "w" "tmp" true RunOutcome.ok).2.2.1 "w",
    (go_impl_workdir_policy "w" "tmp" true RunOutcome.ok).2.2.2⟩

end WwtAligner
